import Mathlib

/-!
Verification of `packages/common/infra/src/utils/fractional-indexing.ts`.

JS strings are embedded as `List Char`; JS string comparison (`<`, `>=`, ...)
is code-unit lexicographic, embedded as the structural `strLt` below (all keys
involved are ASCII, where code units and characters coincide).  The external
dependency `generateKeyBetween` from the `fractional-indexing` npm package
(BASE-BETWEEN in the spec) is out of scope and is passed as a function
parameter `base`; the contract the spec assigns to it is stated pointwise by
`baseOkAt`.  The random 32-character suffix produced by `postfix()` (via
`crypto.getRandomValues`) is nondeterministic, so it is likewise passed as an
explicit parameter.  Thrown JS errors are embedded as `Except.error`.
-/

namespace FracIdx

/-- JS strings as char sequences. -/
abbrev Str := List Char

/-- JS `a < b` on strings: code-unit lexicographic order. -/
def strLt : Str → Str → Bool
  | [], [] => false
  | [], _ :: _ => true
  | _ :: _, [] => false
  | a :: as, b :: bs => if a < b then true else if b < a then false else strLt as bs

/-- JS `a <= b` on strings (total order: `a <= b` iff `¬(b < a)`). -/
def strLe (a b : Str) : Bool := !(strLt b a)

/-- Source `randomSize`: length of the random suffix. -/
def randomSize : Nat := 32

/-- The suffix alphabet of `postfix()`: digits 1-9 and mixed-case letters. -/
def suffixChars : Str :=
  ('1' :: '2' :: '3' :: '4' :: '5' :: '6' :: '7' :: '8' :: '9' :: []) ++
  "ABCDEFGHIJKLMNOPQRSTUVWXYZabcdefghijklmnopqrstuvwxyz".toList

/-- Source `subkey` (non-null case): a key of length ≤ `randomSize + 1`
is its own subkey; otherwise `key.substring(0, key.length - randomSize - 1)`. -/
def subkeyStr (key : Str) : Str :=
  if key.length ≤ randomSize + 1 then key
  else key.take (key.length - randomSize - 1)

/-- Source `subkey`, including the null case. -/
def subkeyOpt : Option Str → Option Str
  | none => none
  | some k => some (subkeyStr k)

/-- The guard `a !== null && b !== null && a >= b` of
`generateFractionalIndexingKeyBetween`. -/
def boundOrderViolation : Option Str → Option Str → Bool
  | some a, some b => strLe b a
  | _, _ => false

/-- The type of the BASE-BETWEEN dependency (`generateKeyBetween` from the
`fractional-indexing` package), supplied by the caller. -/
abbrev BaseFn := Option Str → Option Str → Str

/-- The spec contract of BASE-BETWEEN, stated at one call site: the result is
strictly above a present lower bound and strictly below a present upper bound. -/
def loOk : Option Str → Str → Bool
  | none, _ => true
  | some lo, k => strLt lo k

/-- Upper-bound half of the BASE-BETWEEN contract at one call site. -/
def hiOk : Str → Option Str → Bool
  | _, none => true
  | k, some hi => strLt k hi

/-- BASE-BETWEEN's contract (`lo < k < hi`, absent bounds unconstrained) at
the single bound pair `(lo, hi)`. -/
def baseOkAt (base : BaseFn) (lo hi : Option Str) : Bool :=
  loOk lo (base lo hi) && hiOk (base lo hi) hi

/-- Source `generateFractionalIndexingKeyBetween`.  `base` is the
`generateKeyBetween` dependency and `sfx` the string produced by `postfix()`
for this invocation.  The `throw` is an `Except.error`; the trailing
`throw new Error('Never reach here')` is unreachable since the match on the
two subkeys is exhaustive. -/
def generateFractionalIndexingKeyBetween (base : BaseFn) (sfx : Str)
    (a b : Option Str) : Except String Str :=
  if boundOrderViolation a b then
    Except.error "a should be smaller than b"
  else
    match subkeyOpt a, subkeyOpt b with
    | none, none => Except.ok (base none none ++ '0' :: sfx)
    | none, some sb => Except.ok (base none (some sb) ++ '0' :: sfx)
    | some sa, none => Except.ok (base (some sa) none ++ '0' :: sfx)
    | some sa, some sb =>
      if sa = sb then Except.ok (base a b ++ '0' :: sfx)
      else Except.ok (base (some sa) (some sb) ++ '0' :: sfx)

/-- An item of the sortable helper: the caller-owned entity restricted to the
two fields the core reads and writes (`getItemId`, `getItemOrder`). -/
structure SItem where
  id : Str
  order : Str
deriving DecidableEq, Repr

/-- Source `getOrderedItems`: sort the provider's items ascending by order.  The JS
comparator `oa > ob ? 1 : oa < ob ? -1 : 0` together with the (ES2019)
stability of `Array.prototype.sort` is exactly a stable sort by
`oa <= ob`, embedded as a stable insertion sort. -/
def getOrderedItems (l : List SItem) : List SItem :=
  l.insertionSort (fun x y => strLe x.order y.order = true)

/-- Source `getLargestOrder`: order of the last sorted item, or null. -/
def getLargestOrder (l : List SItem) : Option Str :=
  (getOrderedItems l).getLast?.map (fun i => i.order)

/-- Source `getSmallestOrder`: order of the first sorted item, or null. -/
def getSmallestOrder (l : List SItem) : Option Str :=
  (getOrderedItems l).head?.map (fun i => i.order)

/-- Source `getNewItemOrder`: a key at the end of the list, generated by the BASE
dependency directly (`generateKeyBetween(getLargestOrder(), null)`). -/
def getNewItemOrder (base : BaseFn) (l : List SItem) : Str :=
  base (getLargestOrder l) none

/-- JS `Array.prototype.findIndex`: index of the first match, `-1` if none. -/
def jsFindIndex (l : List SItem) (p : SItem → Bool) : Int :=
  match l.findIdx? p with
  | some n => (n : Int)
  | none => -1

/-- JS indexing `items[i]`: `undefined` (here `none`) when out of range,
including every negative index. -/
def jsIndex (l : List SItem) (i : Int) : Option SItem :=
  if i < 0 then none else l[i.toNat]?

/-- One `setItemOrder(item, order)` invocation recorded by a write operation.
The first component is the `item` argument, which the source can pass as
`undefined` (`none`): `move` does not guard against a missing `fromItem`. -/
abbrev HookCall := Option SItem × Str

/-- Source `move(fromId, toId)`, as the list of `setItemOrder`
invocations it performs (always exactly one, even when `fromId` is absent). -/
def moveCalls (base : BaseFn) (l : List SItem) (fromId toId : Str) :
    List HookCall :=
  let items := getOrderedItems l
  let fromI := jsFindIndex items (fun i => i.id == fromId)
  let toI := jsFindIndex items (fun i => i.id == toId)
  let fromItem := jsIndex items fromI
  let toItem := jsIndex items toI
  let toNextItem := jsIndex items (if fromI < toI then toI + 1 else toI - 1)
  let toOrder := toItem.map (fun i => i.order)
  let toNextOrder := toNextItem.map (fun i => i.order)
  let args := if fromI < toI then (toOrder, toNextOrder) else (toNextOrder, toOrder)
  [(fromItem, base args.1 args.2)]

/-- The `position` argument of `moveTo`. -/
inductive MovePosition where
  | before
  | after
deriving DecidableEq, Repr

/-- Source `moveTo(fromId, toId, position)`, as its list of
`setItemOrder` invocations (`[]` when `fromItem` is `undefined`). -/
def moveToCalls (base : BaseFn) (l : List SItem) (fromId toId : Str)
    (position : MovePosition) : List HookCall :=
  let items := getOrderedItems l
  let fromI := jsFindIndex items (fun i => i.id == fromId)
  let toI := jsFindIndex items (fun i => i.id == toId)
  match jsIndex items fromI with
  | none => []
  | some fromItem =>
    let toItem := jsIndex items toI
    let toItemPrev := jsIndex items (toI - 1)
    let toItemNext := jsIndex items (toI + 1)
    let toItemOrder := toItem.map (fun i => i.order)
    let toItemPrevOrder := toItemPrev.map (fun i => i.order)
    let toItemNextOrder := toItemNext.map (fun i => i.order)
    match position with
    | MovePosition.before => [(some fromItem, base toItemPrevOrder toItemOrder)]
    | MovePosition.after => [(some fromItem, base toItemOrder toItemNextOrder)]

/-- Source `insertBefore(id, beforeId)`, as its list of
`setItemOrder` invocations (`[]` when `id` is not found; `beforeId` may be
`undefined`, embedded as `none`, which never equals an item id). -/
def insertBeforeCalls (base : BaseFn) (l : List SItem) (id : Str)
    (beforeId : Option Str) : List HookCall :=
  let items := getOrderedItems l
  match items.find? (fun i => i.id == id) with
  | none => []
  | some item =>
    let beforeItemIndex := jsFindIndex items (fun i => some i.id == beforeId)
    let beforeItem := if beforeItemIndex != -1 then jsIndex items beforeItemIndex else none
    let beforeItemPrev :=
      match beforeItem with
      | some _ => jsIndex items (beforeItemIndex - 1)
      | none => none
    let beforeOrder := beforeItem.map (fun i => i.order)
    let beforePrevOrder := beforeItemPrev.map (fun i => i.order)
    [(some item, base beforePrevOrder beforeOrder)]

/-- Effect of `setItemOrder` applied to a call log: assigning an order to an item of the
collection replaces that item's order field (items are identified by id);
a call whose item is `undefined` assigns no collection item. -/
def applyCalls (l : List SItem) (calls : List HookCall) : List SItem :=
  calls.foldl
    (fun acc c =>
      match c.1 with
      | none => acc
      | some it => acc.map (fun x => if x.id == it.id then { x with order := c.2 } else x))
    l

/-- Claim C3's envelope predicate: the key ends with the literal separator
`'0'` followed by a 32-character suffix over the `postfix()` alphabet. -/
def hasCollisionEnvelope (k : Str) : Bool :=
  decide (randomSize + 1 ≤ k.length) &&
  (k.drop (k.length - randomSize - 1)).head? == some '0' &&
  (k.drop (k.length - randomSize)).all (fun c => suffixChars.contains c)

/-- A possible output of `postfix()`: 32 copies of `'1'`. -/
def sfxOnes : Str := List.replicate 32 '1'

/-- A possible output of `postfix()`: 32 copies of `'z'`. -/
def sfxZs : Str := List.replicate 32 'z'

/-- A BASE-BETWEEN stand-in returning `"a0"`, which is what the real
`generateKeyBetween` returns for the pairs `(null, null)` and
`(null, "a1")` at which this stand-in is used. -/
def baseA0 : BaseFn := fun _ _ => "a0".toList

/-- A BASE-BETWEEN stand-in returning `"a01"`, which is what the real
`generateKeyBetween` returns for the pair `("a0", "a010V")` at which this
stand-in is used. -/
def baseA01 : BaseFn := fun _ _ => "a01".toList

/-- A BASE-BETWEEN stand-in returning `"a4"`, contract-compliant at the
pair `("a3", null)` at which it is used. -/
def baseA4 : BaseFn := fun _ _ => "a4".toList

/-- A full layered key with subkey `"a0"` and suffix `sfxOnes`. -/
def keyA1 : Str := "a0".toList ++ '0' :: sfxOnes

/-- A full layered key with subkey `"a010V"` and suffix `sfxOnes`. -/
def keyB1 : Str := "a010V".toList ++ '0' :: sfxOnes

/-- A full layered key with subkey `"a0"` and suffix `sfxZs`. -/
def keyB2 : Str := "a0".toList ++ '0' :: sfxZs

/-- Concrete item `a` with order `"a1"`. -/
def itA : SItem := ⟨"a".toList, "a1".toList⟩

/-- Concrete item `b` with order `"a2"`. -/
def itB : SItem := ⟨"b".toList, "a2".toList⟩

/-- Concrete item `c` with order `"a3"`. -/
def itC : SItem := ⟨"c".toList, "a3".toList⟩

/-- A two-item collection. -/
def coll2 : List SItem := [itA, itB]

/-- A three-item collection, already in key order. -/
def coll3 : List SItem := [itA, itB, itC]

/-! ## Helper lemmas -/

/-- Transitivity of `strLt` (lexicographic order over the total order on `Char`). -/
theorem strLt_trans : ∀ {a b c : Str},
    strLt a b = true → strLt b c = true → strLt a c = true := by
  intro a
  induction a with
  | nil =>
    intro b c hab hbc
    cases b with
    | nil => simp [strLt] at hab
    | cons y ys =>
      cases c with
      | nil => simp [strLt] at hbc
      | cons z zs => simp [strLt]
  | cons x xs ih =>
    intro b c hab hbc
    cases b with
    | nil => simp [strLt] at hab
    | cons y ys =>
      cases c with
      | nil => simp [strLt] at hbc
      | cons z zs =>
        simp only [strLt] at hab hbc ⊢
        by_cases hxy : x < y
        · by_cases hyz : y < z
          · rw [if_pos (lt_trans hxy hyz)]
          · rw [if_neg hyz] at hbc
            by_cases hzy : z < y
            · simp [if_pos hzy] at hbc
            · have : y = z := le_antisymm (not_lt.mp hzy) (not_lt.mp hyz)
              rw [if_pos (this ▸ hxy)]
        · rw [if_neg hxy] at hab
          by_cases hyx : y < x
          · simp [if_pos hyx] at hab
          · have hxyeq : x = y := le_antisymm (not_lt.mp hyx) (not_lt.mp hxy)
            rw [if_neg hyx] at hab
            by_cases hyz : y < z
            · rw [if_pos (hxyeq ▸ hyz)]
            · rw [if_neg hyz] at hbc
              by_cases hzy : z < y
              · simp [if_pos hzy] at hbc
              · rw [if_neg hzy] at hbc
                have hyzeq : y = z := le_antisymm (not_lt.mp hzy) (not_lt.mp hyz)
                have hxz1 : ¬ x < z := by rw [hxyeq, hyzeq]; exact lt_irrefl z
                have hxz2 : ¬ z < x := by rw [hxyeq, hyzeq]; exact lt_irrefl z
                rw [if_neg hxz1, if_neg hxz2]
                exact ih hab hbc

/-- The subkey of a nonempty key is nonempty. -/
theorem subkeyStr_ne_nil (x : Str) (hx : x ≠ []) : subkeyStr x ≠ [] := by
  unfold subkeyStr
  split
  · exact hx
  · next h =>
    have hlen : 33 < x.length := by
      simp only [randomSize] at h
      omega
    intro hcontra
    have := congrArg List.length hcontra
    simp only [List.length_take, List.length_nil] at this
    omega

/-! ## Claims -/

/-- C2: for present bounds with `a >= b` lexicographically,
`generateFractionalIndexingKeyBetween(a, b)` fails with the
invalid-bound-order error and never returns a string. -/
theorem C2_invalid_bound_order_rejected (base : BaseFn) (sfx : Str) (a b : Str)
    (h : strLe b a = true) :
    generateFractionalIndexingKeyBetween base sfx (some a) (some b)
      = Except.error "a should be smaller than b" := by
  simp [generateFractionalIndexingKeyBetween, boundOrderViolation, h]

/-- C2 witness: the rejection at the concrete pair `("b", "a")`. -/
theorem C2_witness :
    generateFractionalIndexingKeyBetween baseA0 sfxOnes
        (some "b".toList) (some "a".toList)
      = Except.error "a should be smaller than b" :=
  C2_invalid_bound_order_rejected baseA0 sfxOnes "b".toList "a".toList (by decide)

/-- C4 (amended: the re-appending identity requires a nonempty key, since
`subkey("") = ""` while `subkey("0" + s)` for a 32-character `s` is the whole
33-character string): for `|x| ≤ 33`, `subkey(x) = x`; for `|x| > 33`,
`subkey(x)` drops the trailing 33 characters; and for nonempty `x` and any
32-character `s`, `subkey(subkey(x) + '0' + s) = subkey(x)`. -/
theorem C4_subkey_extraction (x s : Str) :
    (x.length ≤ 33 → subkeyStr x = x) ∧
    (33 < x.length → subkeyStr x = x.take (x.length - 33)) ∧
    (x ≠ [] → s.length = 32 →
      subkeyStr (subkeyStr x ++ '0' :: s) = subkeyStr x) := by
  refine ⟨fun h => ?_, fun h => ?_, fun hx hs => ?_⟩
  · rw [subkeyStr, if_pos (by simpa [randomSize] using h)]
  · rw [subkeyStr, if_neg (by simp only [randomSize]; omega)]
    congr 1
  · have hy : subkeyStr x ≠ [] := subkeyStr_ne_nil x hx
    have hylen : 1 ≤ (subkeyStr x).length := List.length_pos.mpr hy
    generalize subkeyStr x = y at hy hylen ⊢
    have hlen : (y ++ '0' :: s).length = y.length + 33 := by
      simp [List.length_append, hs]
    rw [subkeyStr, if_neg (by simp only [randomSize]; omega)]
    have harith : (y ++ '0' :: s).length - randomSize - 1 = y.length := by
      simp only [randomSize]; omega
    rw [harith]
    exact List.take_left y ('0' :: s)

/-- C4 counterexample: at the empty key, re-appending `'0'` plus a
32-character suffix to the subkey does not reproduce the same subkey. -/
theorem C4_cex :
    subkeyStr (subkeyStr [] ++ '0' :: sfxOnes) ≠ subkeyStr [] := by decide

/-- C4 witness: the three amended clauses at concrete keys. -/
theorem C4_witness :
    subkeyStr "ab".toList = "ab".toList ∧
    subkeyStr keyB1 = keyB1.take (keyB1.length - 33) ∧
    subkeyStr (subkeyStr "ab".toList ++ '0' :: sfxOnes) = subkeyStr "ab".toList :=
  ⟨(C4_subkey_extraction "ab".toList sfxOnes).1 (by decide),
   (C4_subkey_extraction keyB1 sfxOnes).2.1 (by decide),
   (C4_subkey_extraction "ab".toList sfxOnes).2.2 (by decide) (by decide)⟩

/-- C5: for present bounds `a < b` with equal subkeys, BASE-BETWEEN is called
on the full original strings and its result returned with `'0'` plus the
32-character suffix appended; with different subkeys, BASE-BETWEEN is called
on the two subkeys instead. -/
theorem C5_branch_selection (base : BaseFn) (sfx : Str) (a b : Str)
    (hlt : strLt a b = true) (_hsfx : sfx.length = randomSize) :
    (subkeyStr a = subkeyStr b →
      generateFractionalIndexingKeyBetween base sfx (some a) (some b)
        = Except.ok (base (some a) (some b) ++ '0' :: sfx)) ∧
    (subkeyStr a ≠ subkeyStr b →
      generateFractionalIndexingKeyBetween base sfx (some a) (some b)
        = Except.ok (base (some (subkeyStr a)) (some (subkeyStr b)) ++ '0' :: sfx)) := by
  have hv : boundOrderViolation (some a) (some b) = false := by
    simp [boundOrderViolation, strLe, hlt]
  constructor <;> intro h <;>
    simp [generateFractionalIndexingKeyBetween, hv, subkeyOpt, h]

/-- C5 witness: the equal-subkey branch at `(keyA1, keyB2)` (shared subkey
`"a0"`) and the distinct-subkey branch at `(keyA1, keyB1)`. -/
theorem C5_witness :
    generateFractionalIndexingKeyBetween baseA01 sfxOnes (some keyA1) (some keyB2)
      = Except.ok (baseA01 (some keyA1) (some keyB2) ++ '0' :: sfxOnes) ∧
    generateFractionalIndexingKeyBetween baseA01 sfxOnes (some keyA1) (some keyB1)
      = Except.ok (baseA01 (some (subkeyStr keyA1)) (some (subkeyStr keyB1)) ++ '0' :: sfxOnes) :=
  ⟨(C5_branch_selection baseA01 sfxOnes keyA1 keyB2 (by decide) (by decide)).1
      (by decide),
   (C5_branch_selection baseA01 sfxOnes keyA1 keyB1 (by decide) (by decide)).2
      (by decide)⟩

/-- C1: the claimed strict betweenness fails.  With bounds
`a = "a0" + '0' + 32×'1'` and `b = "a010V" + '0' + 32×'1'` (both of the
layered shape the function itself produces, with `a < b` and correctly
ordered distinct subkeys `"a0" < "a01" < "a010V"`), a BASE-BETWEEN result of
`"a01"` — which is exactly what the real `generateKeyBetween("a0", "a010V")`
returns, and which satisfies the stated contract at that pair — composed
with the possible random suffix `32×'z'` yields a key strictly greater
than `b`. -/
theorem C1_betweenness_fails_eval :
    strLt keyA1 keyB1 = true ∧
    subkeyStr keyA1 = "a0".toList ∧
    subkeyStr keyB1 = "a010V".toList ∧
    baseOkAt baseA01 (some (subkeyStr keyA1)) (some (subkeyStr keyB1)) = true ∧
    generateFractionalIndexingKeyBetween baseA01 sfxZs (some keyA1) (some keyB1)
      = Except.ok ("a01".toList ++ '0' :: sfxZs) ∧
    strLt keyB1 ("a01".toList ++ '0' :: sfxZs) = true :=
  ⟨by decide, by decide, by decide, by decide, rfl, by decide⟩

/-- C3 counterexample: under a BASE-BETWEEN stand-in that is
contract-compliant at the pair passed (and agrees there with the real
`generateKeyBetween`), `move` assigns the raw BASE-BETWEEN key `"a0"`,
which does not carry the `'0'`-plus-32-character collision envelope. -/
theorem C3_cex :
    moveCalls baseA0 coll2 "b".toList "a".toList = [(some itB, "a0".toList)] ∧
    baseOkAt baseA0 none (some "a1".toList) = true ∧
    hasCollisionEnvelope "a0".toList = false :=
  ⟨by decide, by decide, by decide⟩

/-- C3 (amended): every key a write operation of the sortable helper
assigns is the raw output of the BASE-BETWEEN dependency
(`generateKeyBetween`) at the bound pair the operation computes — the helper
never routes keys through `generateFractionalIndexingKeyBetween`, so no
separator-plus-random-suffix envelope is appended. -/
theorem C3_keys_from_base_directly (base : BaseFn) (l : List SItem)
    (fromId toId iid : Str) (bid : Option Str) (pos : MovePosition) :
    (∀ c ∈ moveCalls base l fromId toId, ∃ lo hi, c.2 = base lo hi) ∧
    (∀ c ∈ moveToCalls base l fromId toId pos, ∃ lo hi, c.2 = base lo hi) ∧
    (∀ c ∈ insertBeforeCalls base l iid bid, ∃ lo hi, c.2 = base lo hi) ∧
    (∃ lo hi, getNewItemOrder base l = base lo hi) := by
  refine ⟨?_, ?_, ?_, ⟨getLargestOrder l, none, rfl⟩⟩
  · intro c hc
    simp only [moveCalls, List.mem_singleton] at hc
    exact ⟨_, _, by rw [hc]⟩
  · intro c hc
    simp only [moveToCalls] at hc
    split at hc
    · simp at hc
    · split at hc <;> simp only [List.mem_singleton] at hc <;>
        exact ⟨_, _, by rw [hc]⟩
  · intro c hc
    simp only [insertBeforeCalls] at hc
    split at hc
    · simp at hc
    · simp only [List.mem_singleton] at hc
      exact ⟨_, _, by rw [hc]⟩

/-- C3 witness: the amended clauses at a concrete collection and call. -/
theorem C3_witness :
    (∃ lo hi, ((some itB, "a0".toList) : HookCall).2 = baseA0 lo hi) ∧
    (∃ lo hi, getNewItemOrder baseA0 coll2 = baseA0 lo hi) :=
  ⟨(C3_keys_from_base_directly baseA0 coll2 "b".toList "a".toList "b".toList
      none MovePosition.before).1 (some itB, "a0".toList) (by decide),
   (C3_keys_from_base_directly baseA0 coll2 "b".toList "a".toList "b".toList
      none MovePosition.before).2.2.2⟩

/-- C6 counterexample: on `[a, b, c]` with orders `"a1" < "a2" < "a3"`,
`move(a.id, c.id)` generates the new key between `c.order` and `null`
(the stand-in returns `"a4"`, contract-compliant at that pair), so the new
key is NOT below `c.order` as the claim requires. -/
theorem C6_cex :
    moveCalls baseA4 coll3 "a".toList "c".toList = [(some itA, "a4".toList)] ∧
    baseOkAt baseA4 (some "a3".toList) none = true ∧
    strLt "a4".toList "a3".toList = false :=
  ⟨by decide, by decide, by decide⟩

/-- C6 (amended): on a sorted snapshot `[a, b, c]` with distinct ids and
`a.order < b.order < c.order`, `move(a.id, c.id)` performs one assignment,
giving item `a` the key `BASE-BETWEEN(c.order, null)`; assuming the
BASE-BETWEEN contract at that pair, the new key is strictly above both
`b.order` and `c.order`, so the resulting sorted order is `[b, c, a']`
(not `[b, a', c]` as originally claimed). -/
theorem C6_move_after_target (base : BaseFn) (l : List SItem) (a b c : SItem)
    (hitems : getOrderedItems l = [a, b, c])
    (hac : (a.id == c.id) = false) (hbc : (b.id == c.id) = false)
    (_hab : strLt a.order b.order = true) (hbcord : strLt b.order c.order = true)
    (hbase : baseOkAt base (some c.order) none = true) :
    moveCalls base l a.id c.id = [(some a, base (some c.order) none)] ∧
    strLt b.order (base (some c.order) none) = true ∧
    strLt c.order (base (some c.order) none) = true := by
  have hck : strLt c.order (base (some c.order) none) = true := by
    simpa [baseOkAt, loOk, hiOk] using hbase
  have hfrom : jsFindIndex [a, b, c] (fun i => i.id == a.id) = 0 := by
    simp [jsFindIndex, List.findIdx?_cons]
  have hto : jsFindIndex [a, b, c] (fun i => i.id == c.id) = 2 := by
    simp [jsFindIndex, List.findIdx?_cons, hac, hbc]
  refine ⟨?_, strLt_trans hbcord hck, hck⟩
  simp only [moveCalls, hitems, hfrom, hto, jsIndex]
  norm_num
  rfl

/-- C6 witness: the amended statement on the concrete collection `coll3`. -/
theorem C6_witness :
    moveCalls baseA4 coll3 itA.id itC.id = [(some itA, baseA4 (some itC.order) none)] ∧
    strLt itB.order (baseA4 (some itC.order) none) = true ∧
    strLt itC.order (baseA4 (some itC.order) none) = true :=
  C6_move_after_target baseA4 coll3 itA itB itC (by decide) (by decide)
    (by decide) (by decide) (by decide) (by decide)

/-- C7: the code contradicts the claim (and its own doc-comment example).
`insertBefore(b.id, undefined)` on `[a, b, c]` with orders
`"a1" < "a2" < "a3"` passes `(null, null)` to BASE-BETWEEN — not
`(largestOrder excluding b, null)`.  The stand-in returns `"a0"` (exactly
what the real `generateKeyBetween(null, null)` returns, trivially
contract-compliant at that unconstrained pair), and the assigned key `"a0"`
is NOT greater than the other items' keys — it is smaller than all of them,
so `b` moves to the front, not the end. -/
theorem C7_insertBefore_append_fails_eval :
    insertBeforeCalls baseA0 coll3 "b".toList none = [(some itB, "a0".toList)] ∧
    baseOkAt baseA0 none none = true ∧
    strLt "a3".toList "a0".toList = false ∧
    strLt "a0".toList "a1".toList = true :=
  ⟨by decide, by decide, by decide, by decide⟩

/-- C8 counterexample: `move` with a missing `fromId` is NOT a no-op at the
mutation-hook boundary: it still performs a `setItemOrder` invocation (with
an `undefined` item), because `move` — unlike `moveTo` — never guards
against `fromItem === undefined`. -/
theorem C8_cex :
    moveCalls baseA4 coll3 "x".toList "c".toList ≠ [] ∧
    baseOkAt baseA4 (some "a3".toList) none = true :=
  ⟨by decide, by decide⟩

/-- C8 (amended): with `fromId` absent from the collection, `moveTo` is a
silent no-op (zero hook calls), while `move` still performs exactly one
`setItemOrder` invocation whose item argument is `undefined`; no item of the
collection receives a new order in either case. -/
theorem C8_missing_from (base : BaseFn) (l : List SItem) (fromId toId : Str)
    (pos : MovePosition)
    (h : ∀ x ∈ getOrderedItems l, (x.id == fromId) = false) :
    moveToCalls base l fromId toId pos = [] ∧
    (moveCalls base l fromId toId).map Prod.fst = [none] ∧
    applyCalls l (moveCalls base l fromId toId) = l := by
  have hidx : (getOrderedItems l).findIdx? (fun i => i.id == fromId) = none :=
    List.findIdx?_eq_none_iff.mpr h
  have hfi : jsFindIndex (getOrderedItems l) (fun i => i.id == fromId) = -1 := by
    simp [jsFindIndex, hidx]
  have hnone : jsIndex (getOrderedItems l) (-1) = none := by
    simp [jsIndex]
  refine ⟨?_, ?_, ?_⟩
  · simp only [moveToCalls, hfi, hnone]
  · simp only [moveCalls, hfi, hnone, List.map_cons, List.map_nil]
  · simp only [moveCalls, hfi, hnone]
    rfl

/-- C8 witness: the amended statement on the concrete collection `coll3`
with the absent id `"x"`. -/
theorem C8_witness :
    moveToCalls baseA4 coll3 "x".toList "c".toList MovePosition.after = [] ∧
    (moveCalls baseA4 coll3 "x".toList "c".toList).map Prod.fst = [none] ∧
    applyCalls coll3 (moveCalls baseA4 coll3 "x".toList "c".toList) = coll3 :=
  C8_missing_from baseA4 coll3 "x".toList "c".toList MovePosition.after (by decide)

/-- C9 counterexample: `moveTo` with a missing `fromId` performs zero
`setItemOrder` invocations, so "exactly one call per invocation" fails. -/
theorem C9_cex :
    moveToCalls baseA0 coll3 "x".toList "a".toList MovePosition.before = [] := by
  decide

/-- C9 (amended): each write operation performs at most one `setItemOrder`
invocation — `move` always exactly one, `moveTo` and `insertBefore` exactly
one when the moved/inserted item is found in the collection and exactly zero
otherwise — and applying a single call leaves every item whose id differs
from the call's target unchanged. -/
theorem C9_at_most_one_assignment (base : BaseFn) (l : List SItem)
    (fromId toId iid : Str) (bid : Option Str) (pos : MovePosition) :
    (moveCalls base l fromId toId).length = 1 ∧
    ((moveToCalls base l fromId toId pos).length =
      if (getOrderedItems l).any (fun i => i.id == fromId) then 1 else 0) ∧
    ((insertBeforeCalls base l iid bid).length =
      if (getOrderedItems l).any (fun i => i.id == iid) then 1 else 0) ∧
    (∀ tgt k x, x ∈ l → (∀ it, tgt = some it → it.id ≠ x.id) →
      x ∈ applyCalls l [(tgt, k)]) := by
  refine ⟨rfl, ?_, ?_, ?_⟩
  · by_cases hany : (getOrderedItems l).any (fun i => i.id == fromId) = true
    · obtain hex := List.any_eq_true.mp hany
      have hlt : (getOrderedItems l).findIdx (fun i => i.id == fromId)
          < (getOrderedItems l).length := List.findIdx_lt_length_of_exists hex
      have hsome : (getOrderedItems l).findIdx? (fun i => i.id == fromId)
          = some ((getOrderedItems l).findIdx (fun i => i.id == fromId)) :=
        List.findIdx?_eq_some_iff_findIdx_eq.mpr ⟨hlt, rfl⟩
      have hfi : jsFindIndex (getOrderedItems l) (fun i => i.id == fromId)
          = ((getOrderedItems l).findIdx (fun i => i.id == fromId) : Int) := by
        simp [jsFindIndex, hsome]
      have hjs : jsIndex (getOrderedItems l)
            (jsFindIndex (getOrderedItems l) (fun i => i.id == fromId))
          = some ((getOrderedItems l).get
              ⟨(getOrderedItems l).findIdx (fun i => i.id == fromId), hlt⟩) := by
        rw [hfi, jsIndex, if_neg (by omega)]
        rw [Int.toNat_ofNat]
        simp [List.getElem?_eq_getElem hlt]
      rw [if_pos hany]
      simp only [moveToCalls, hjs]
      cases pos <;> rfl
    · have hfalse : ∀ x ∈ getOrderedItems l, (x.id == fromId) = false := by
        intro x hx
        cases hpx : (x.id == fromId) with
        | false => rfl
        | true => exact absurd (List.any_eq_true.mpr ⟨x, hx, hpx⟩) hany
      have hidx : (getOrderedItems l).findIdx? (fun i => i.id == fromId) = none :=
        List.findIdx?_eq_none_iff.mpr hfalse
      have hfi : jsFindIndex (getOrderedItems l) (fun i => i.id == fromId) = -1 := by
        simp [jsFindIndex, hidx]
      have hnone : jsIndex (getOrderedItems l) (-1) = none := by
        simp [jsIndex]
      rw [if_neg hany]
      simp only [moveToCalls, hfi, hnone, List.length_nil]
  · cases hf : (getOrderedItems l).find? (fun i => i.id == iid) with
    | none =>
      have hnone : ∀ x ∈ getOrderedItems l, ¬((x.id == iid) = true) :=
        List.find?_eq_none.mp hf
      rw [if_neg (fun hany => by
        obtain ⟨x, hx, hpx⟩ := List.any_eq_true.mp hany
        exact hnone x hx hpx)]
      simp only [insertBeforeCalls, hf, List.length_nil]
    | some x =>
      have hmem : x ∈ getOrderedItems l := List.mem_of_find?_eq_some hf
      have hpx : (fun i => i.id == iid) x = true :=
        @List.find?_some _ (fun i => i.id == iid) x _ hf
      have hany : (getOrderedItems l).any (fun i => i.id == iid) = true :=
        List.any_eq_true.mpr ⟨x, hmem, hpx⟩
      rw [if_pos hany]
      simp only [insertBeforeCalls, hf, List.length_singleton]
  · intro tgt k x hx hid
    cases tgt with
    | none => simpa [applyCalls] using hx
    | some it =>
      have hne : x.id ≠ it.id := fun hcontra => (hid it rfl) hcontra.symm
      have hbeq : (x.id == it.id) = false := beq_eq_false_iff_ne.mpr hne
      simp only [applyCalls, List.foldl_cons, List.foldl_nil]
      exact List.mem_map.mpr ⟨x, hx, by simp [hbeq]⟩

/-- C9 witness: the amended clauses at concrete operations on `coll3`
(with `"a"` present, the two conditional lengths evaluate to one). -/
theorem C9_witness :
    (moveCalls baseA0 coll3 "a".toList "b".toList).length = 1 ∧
    ((moveToCalls baseA0 coll3 "a".toList "b".toList MovePosition.after).length =
      if (getOrderedItems coll3).any (fun i => i.id == "a".toList) then 1 else 0) ∧
    ((insertBeforeCalls baseA0 coll3 "a".toList none).length =
      if (getOrderedItems coll3).any (fun i => i.id == "a".toList) then 1 else 0) ∧
    itA ∈ applyCalls coll3 [(none, "a9".toList)] :=
  ⟨(C9_at_most_one_assignment baseA0 coll3 "a".toList "b".toList "a".toList
      none MovePosition.after).1,
   (C9_at_most_one_assignment baseA0 coll3 "a".toList "b".toList "a".toList
      none MovePosition.after).2.1,
   (C9_at_most_one_assignment baseA0 coll3 "a".toList "b".toList "a".toList
      none MovePosition.after).2.2.1,
   (C9_at_most_one_assignment baseA0 coll3 "a".toList "b".toList "a".toList
      none MovePosition.after).2.2.2 none "a9".toList itA (by decide)
      (fun it h => nomatch h)⟩

/-- C10: `moveTo` with `fromId` present but `toId` missing still assigns a
key: with position `after` the bounds are `(null, first item's order)` — so
under the BASE-BETWEEN contract at that pair the item moves to the front —
and with position `before` the bounds are `(null, null)`. -/
theorem C10_moveTo_missing_target (base : BaseFn) (l : List SItem)
    (fromId toId : Str) (f hd : SItem) (rest : List SItem)
    (hitems : getOrderedItems l = hd :: rest)
    (hto : ∀ x ∈ getOrderedItems l, (x.id == toId) = false)
    (hfrom : jsIndex (getOrderedItems l)
        (jsFindIndex (getOrderedItems l) (fun i => i.id == fromId)) = some f)
    (hbase : baseOkAt base none (some hd.order) = true) :
    moveToCalls base l fromId toId MovePosition.after
      = [(some f, base none (some hd.order))] ∧
    strLt (base none (some hd.order)) hd.order = true ∧
    moveToCalls base l fromId toId MovePosition.before
      = [(some f, base none none)] := by
  have htoidx : (getOrderedItems l).findIdx? (fun i => i.id == toId) = none :=
    List.findIdx?_eq_none_iff.mpr hto
  have htoI : jsFindIndex (getOrderedItems l) (fun i => i.id == toId) = -1 := by
    simp [jsFindIndex, htoidx]
  have hblt : strLt (base none (some hd.order)) hd.order = true := by
    simpa [baseOkAt, loOk, hiOk] using hbase
  have hcur : jsIndex (getOrderedItems l) (-1) = none := by
    simp [jsIndex]
  have hprev : jsIndex (getOrderedItems l) (-1 - 1) = none := by
    simp [jsIndex]
  have hnext : jsIndex (getOrderedItems l) (-1 + 1) = some hd := by
    have h0 : ((-1 : Int) + 1).toNat = 0 := by norm_num
    rw [jsIndex, if_neg (by norm_num), h0, hitems]
    exact List.getElem?_cons_zero
  refine ⟨?_, hblt, ?_⟩ <;>
    simp only [moveToCalls, htoI, hfrom, hcur, hprev, hnext,
      Option.map_none', Option.map_some']

/-- C10 witness: the statement on `coll3` with present `fromId = "b"` and
absent `toId = "zz"`. -/
theorem C10_witness :
    moveToCalls baseA0 coll3 "b".toList "zz".toList MovePosition.after
      = [(some itB, baseA0 none (some itA.order))] ∧
    strLt (baseA0 none (some itA.order)) itA.order = true ∧
    moveToCalls baseA0 coll3 "b".toList "zz".toList MovePosition.before
      = [(some itB, baseA0 none none)] :=
  C10_moveTo_missing_target baseA0 coll3 "b".toList "zz".toList itB itA
    [itB, itC] (by decide) (by decide) (by decide) (by decide)

end FracIdx
